import Mathlib

/-!
Shallow embedding of the vocabulary-drill session of this repository.

Sources embedded:
  * `src/Seito.py`  — class `Seito`: fields set in `__init__`, and the
    methods `generate_word` and `remove_word`;
  * `src/main.py`   — class `SeitoApp`: the shared (backend-independent)
    session logic of `difficulty_set`, `update_question`, `end_session`,
    `update_data` and `restart`.

Modelling choices:
  * Python integers are `Int` (arbitrary precision, may go negative).
  * The word pool `self.data` is a `List WordEntry`; Python's `data[i]`
    and `data.pop(i)` resolve a possibly negative index exactly as
    Python does (negative indices count from the end, out-of-range
    raises `IndexError`).
  * `random.randint(a, b)` is modelled by an oracle parameter `r`
    supplied to each operation that draws; a run of the real program
    corresponds to oracle values satisfying `a ≤ r ≤ b`.  `randint`
    itself raises `ValueError` when `a > b`, which the model reports as
    a crash before any assignment happens.
  * An operation returns its post-state together with an `Outcome`:
    `.ok` for normal completion, `.validationError` for the one caught
    `ValueError` (the `except ValueError` of `difficulty_set`, which
    shows an error dialog and returns), `.crash` for an exception that
    no handler catches (the state at raise time is kept, since a Tk/GTK
    callback that raises leaves the object as it was at that moment).
    `.stateError` is named by the specification but, as the theorems
    below show, never produced by the code.
  * GUI-only effects (labels, sounds, reaction timers) are not state of
    the session and are omitted; the one GUI fact the session logic
    branches on — whether the answer entry is currently shown, the
    guard at the top of `update_question` — is kept as the Boolean
    `answerEntryVisible`.  The texts of the two difficulty entries are
    kept as the result of Python's `int()` on them (`Option Int`,
    `none` meaning `int()` would raise), since `difficulty_set` parses
    them and `update_data` records the difficulty entry's content.
  * Floating point: `update_data` / `end_session` compute
    `int(int(word_total) / total_q_num * 100)` in IEEE-754 binary64
    arithmetic, and the binary64 results differ from the exact
    rational quotient at ordinary inputs (`29/100*100` evaluates below
    29).  `codeAccuracy` therefore models the pipeline bit-exactly
    over integers: `w / t` is CPython's correctly-rounded
    (round-to-nearest, ties-to-even, 53-bit significand) conversion of
    the exact quotient, the `* 100` product is rounded the same way,
    and `int()` truncates toward zero.  Exponent-range effects
    (overflow to infinity below 2^1024, subnormals below 2^-1022) are
    outside the word/question counts this program can hold and are not
    modelled.
-/

/-- One row of `split_japanese_words.csv` as `make_data` loads it:
the fields `"English"`, `"Japanese"`, `"Kana"` of one record. -/
structure WordEntry where
  english : String
  japanese : String
  kana : String
deriving DecidableEq

/-- The mutable state of a `Seito` object (`src/Seito.py`, `__init__`). -/
structure Seito where
  r_num : Int
  total_q_num : Int
  correct_ans : Int
  incorrect_ans : Int
  english : String
  kanji : String
  kana : String
  data : List WordEntry
  start : Int
  difficulty : Int
  word_total : Int
  word_count : Int
  win : Bool
deriving DecidableEq

/-- How an operation of the program ended. -/
inductive Outcome where
  /-- the method ran to completion -/
  | ok : Outcome
  /-- the `except ValueError` branch of `difficulty_set`: an error
  dialog is shown and the method returns without touching the session -/
  | validationError : Outcome
  /-- an exception nothing in the program catches (`IndexError` from an
  out-of-range pool access or pop, `ValueError` from `randint` on an
  empty range, `ZeroDivisionError` from the accuracy quotient) -/
  | crash : Outcome
  /-- named by the specification for operations invoked in a terminal
  state; no code path produces it -/
  | stateError : Outcome
deriving DecidableEq

/-- Python sequence-index resolution: a negative index counts from the
end; the access succeeds exactly when the resolved index is in range. -/
def pyResolveIndex (len : Nat) (i : Int) : Option Nat :=
  if i < 0 then
    if 0 ≤ i + len ∧ i + len < len then some (i + len).toNat else none
  else
    if 0 ≤ i ∧ i < len then some i.toNat else none

/-- Python `data[i]` on a list: `some` entry, or `none` for `IndexError`. -/
def pyGet (l : List WordEntry) (i : Int) : Option WordEntry :=
  (pyResolveIndex l.length i).bind fun j => l[j]?

/-- Python `data.pop(i)`: the list without the entry at resolved index
`i`, or `none` for `IndexError`. -/
def pyPop (l : List WordEntry) (i : Int) : Option (List WordEntry) :=
  (pyResolveIndex l.length i).map fun j => l.eraseIdx j

/-- `Seito.generate_word` (`src/Seito.py` lines 25–29), with the value
returned by `random.randint(self.start, self.difficulty)` supplied as
the oracle `r`; a run of the program has `start ≤ r ≤ difficulty`.
`randint` raises before the assignment to `r_num` when the interval is
empty; an out-of-range pool access raises after `r_num` is assigned but
before `english`/`kanji`/`kana` change. -/
def generate_word (s : Seito) (r : Int) : Seito × Outcome :=
  if s.difficulty < s.start then (s, .crash)
  else
    let s1 := { s with r_num := r }
    match pyGet s1.data s1.r_num with
    | some e =>
        ({ s1 with english := e.english, kanji := e.japanese, kana := e.kana }, .ok)
    | none => (s1, .crash)

/-- `Seito.remove_word` (`src/Seito.py` lines 31–37).  In the
`word_count > 0` branch the two decrements happen before
`self.data.pop(self.r_num)`, so a failing pop leaves them applied. -/
def remove_word (s : Seito) : Seito × Outcome :=
  if s.word_count > 0 then
    let s1 := { s with word_count := s.word_count - 1, difficulty := s.difficulty - 1 }
    match pyPop s1.data s1.r_num with
    | some d => ({ s1 with data := d }, .ok)
    | none => (s1, .crash)
  else
    ({ s with win := true }, .ok)

/-- One appended row of `data/user_data.csv` (`update_data`,
`src/main.py` lines 618–642); the `Date` column is wall-clock time and
is not part of the model. -/
structure SessionRecord where
  /-- content of the difficulty entry at completion time, as `int()`
  reads it (the program stores the raw text; `Option Int` keeps what
  the session logic can observe of it) -/
  difficultyLabel : Option Int
  successPercent : Int
  mistakes : Int
  totalWords : Int
deriving DecidableEq

/-- The application state `update_question`/`difficulty_set`/`restart`
operate on: the `Seito` object plus the one GUI flag the logic branches
on and the contents of the two difficulty entries. -/
structure AppState where
  seito : Seito
  /-- whether the answer entry is currently shown: the guard at the top
  of `update_question` (`winfo_viewable` / `get_visible`) -/
  answerEntryVisible : Bool
  /-- `int()` of the difficulty entry's text (`none`: would raise) -/
  diffEntry : Option Int
  /-- `int()` of the start-difficulty entry's text -/
  startEntry : Option Int
  /-- rows of `user_data.csv` so far (`USER_DATA`) -/
  history : List SessionRecord
deriving DecidableEq

/-- `⌊log2 n⌋` for `n ≥ 1`, by structural recursion on a fuel bound so
that the kernel can evaluate it (`n` itself is always enough fuel). -/
def natLog2Aux : Nat → Nat → Nat
  | 0, _ => 0
  | fuel + 1, n => if n ≤ 1 then 0 else natLog2Aux fuel (n / 2) + 1

/-- `⌊log2 n⌋` for `n ≥ 1`. -/
def natLog2 (n : Nat) : Nat := natLog2Aux n n

/-- whether `a / b ≥ 2 ^ E`, by cross-multiplying with nonnegative
powers (exactly one of the two exponents is nonzero). -/
def dyadicGe (a b : Nat) (E : Int) : Bool :=
  decide (b * 2 ^ E.toNat ≤ a * 2 ^ (-E).toNat)

/-- the positive rational `a / b` rounded to a 53-bit significand,
round-to-nearest with ties-to-even — the IEEE-754 binary64 value of
CPython's `a / b` true division of integers, returned as a pair
`(m, e)` of value `m * 2 ^ e` with `2^52 ≤ m < 2^53`. -/
def roundRat53 (a b : Nat) : Nat × Int :=
  let c : Int := (natLog2 a : Int) - (natLog2 b : Int)
  let E : Int := if dyadicGe a b (c + 1) then c + 1
                 else if dyadicGe a b c then c else c - 1
  let e : Int := E - 52
  let num := a * 2 ^ (-e).toNat
  let den := b * 2 ^ e.toNat
  let m := num / den
  let rem := num % den
  let m2 := if den < 2 * rem then m + 1
            else if 2 * rem < den then m
            else if m % 2 = 0 then m else m + 1
  if m2 = 2 ^ 53 then (2 ^ 52, e + 1) else (m2, e)

/-- the positive dyadic `p * 2 ^ e` rounded back to a 53-bit
significand, round-to-nearest with ties-to-even — the binary64 product
after an exact integer scaling of the significand. -/
def roundDyadic53 (p : Nat) (e : Int) : Nat × Int :=
  let k := natLog2 p
  if k ≤ 52 then (p, e)
  else
    let s := k - 52
    let m := p / 2 ^ s
    let rem := p % 2 ^ s
    let half := 2 ^ (s - 1)
    let m2 := if half < rem then m + 1
              else if rem < half then m
              else if m % 2 = 0 then m else m + 1
    if m2 = 2 ^ 53 then (2 ^ 52, e + (s : Int) + 1) else (m2, e + (s : Int))

/-- truncation toward zero of the nonnegative dyadic `m * 2 ^ e`. -/
def truncDyadic (m : Nat) (e : Int) : Nat :=
  if 0 ≤ e then m * 2 ^ e.toNat else m / 2 ^ (-e).toNat

/-- `int(int(word_total) / total_q_num * 100)` with the binary64 float
pipeline modelled bit-exactly: `w / t` is the correctly-rounded double
of the exact quotient, `* 100` multiplies the significand by 100
exactly and rounds once more, and `int()` truncates toward zero; signs
are handled symmetrically, as IEEE rounding and `int()` are.  (In the
exponent range these counters inhabit, binary64 has neither overflow
nor subnormals, so 53-bit significand rounding is the whole story.) -/
def codeAccuracy (w t : Int) : Int :=
  let a := w.natAbs
  let b := t.natAbs
  if a = 0 then 0
  else
    let p1 := roundRat53 a b
    let p2 := roundDyadic53 (p1.1 * 100) p1.2
    let mag : Int := (truncDyadic p2.1 p2.2 : Nat)
    if (w < 0) = (t < 0) then mag else -mag

/-- `SeitoApp.update_data` (`src/main.py` lines 618–642): appends one
row with `Success %` computed by the accuracy quotient; the quotient
raises `ZeroDivisionError` when `total_q_num = 0`. -/
def update_data (app : AppState) : AppState × Outcome :=
  if app.seito.total_q_num = 0 then (app, .crash)
  else
    ({ app with history := app.history ++
        [{ difficultyLabel := app.diffEntry,
           successPercent := codeAccuracy app.seito.word_total app.seito.total_q_num,
           mistakes := app.seito.incorrect_ans,
           totalWords := app.seito.word_total }] }, .ok)

/-- `SeitoApp.end_session` (`src/main.py` lines 441–459): hides the
answer entry (so further Return presses are ignored), then records the
session via `update_data`; the closing dialog recomputes the same
accuracy value and adds no state. -/
def end_session (app : AppState) : AppState × Outcome :=
  update_data { app with answerEntryVisible := false }

/-- The match/mismatch block of `SeitoApp.update_question`
(`src/main.py` lines 388–396): `answer in [self.seito.kanji,
self.seito.kana]` decides between crediting the answer and consuming
the word, or counting a mistake. -/
def score_answer (s : Seito) (answer : String) : Seito × Outcome :=
  if answer = s.kanji ∨ answer = s.kana then
    remove_word { s with correct_ans := s.correct_ans + 1 }
  else
    ({ s with incorrect_ans := s.incorrect_ans + 1 }, .ok)

/-- `SeitoApp.update_question` (`src/main.py` lines 371–413), the
shared logic of both backends, with the oracle `r` for the
`generate_word` draw it performs.  If the answer entry is not visible
the method returns at once; otherwise `total_q_num` is incremented, the
answer is scored, `generate_word` runs unconditionally, and
`end_session` runs when `win` is set. -/
def update_question (app : AppState) (answer : String) (r : Int) : AppState × Outcome :=
  if app.answerEntryVisible = false then (app, .ok)
  else
    let s0 := { app.seito with total_q_num := app.seito.total_q_num + 1 }
    match score_answer s0 answer with
    | (s1, Outcome.ok) =>
        match generate_word s1 r with
        | (s2, Outcome.ok) =>
            if s2.win then end_session { app with seito := s2 }
            else ({ app with seito := s2 }, .ok)
        | (s2, o) => ({ app with seito := s2 }, o)
    | (s1, o) => ({ app with seito := s1 }, o)

/-- `SeitoApp.difficulty_set` (`src/main.py` lines 328–369), the shared
logic of both backends, with the two entry contents it reads (already
as `int()` results) and the oracle `r` for the first draw.  A parse
failure of either entry is the caught `ValueError`: error dialog,
return, session untouched.  Otherwise the four session fields are
assigned and `generate_word` runs; only if that completes is the answer
entry shown. -/
def difficulty_set (app : AppState) (diffRaw startRaw : Option Int) (r : Int) :
    AppState × Outcome :=
  let app := { app with diffEntry := diffRaw, startEntry := startRaw }
  match diffRaw, startRaw with
  | some d, some st =>
      let num_words := d - 1
      let num_start := st
      let s1 := { app.seito with
                    start := num_start,
                    word_total := num_words - num_start + 1,
                    word_count := num_words - num_start,
                    difficulty := num_words }
      match generate_word s1 r with
      | (s2, Outcome.ok) => ({ app with seito := s2, answerEntryVisible := true }, .ok)
      | (s2, o) => ({ app with seito := s2 }, o)
  | _, _ => (app, .validationError)

/-- `SeitoApp.restart` (`src/main.py` lines 481–519): resets `win` and
the three counters, sets `difficulty` back to `10`, and replaces the
pool with the freshly loaded one (`make_data()`, supplied here as
`freshPool`).  `start`, `word_total`, `word_count`, `r_num` and the
cached word fields are not touched, and no word is drawn; the answer
entry stays hidden (it was hidden by `end_session` and `restart` does
not show it). -/
def restart (app : AppState) (freshPool : List WordEntry) : AppState :=
  { app with seito := { app.seito with
      win := false,
      total_q_num := 0,
      correct_ans := 0,
      incorrect_ans := 0,
      difficulty := 10,
      data := freshPool } }

/-! ## Session invariant and reachable traces -/

/-- The safety invariant of a configured session: window bounds inside
the pool, `word_count` in lockstep with `difficulty - start`, the last
drawn index inside the window, and a nonnegative question counter. -/
def SessionInv (app : AppState) : Prop :=
  0 ≤ app.seito.start ∧
  app.seito.start ≤ app.seito.difficulty ∧
  app.seito.difficulty < (app.seito.data.length : Int) ∧
  app.seito.word_count = app.seito.difficulty - app.seito.start ∧
  app.seito.start ≤ app.seito.r_num ∧
  app.seito.r_num ≤ app.seito.difficulty ∧
  0 ≤ app.seito.total_q_num

/-- `r` is a value `random.randint` can actually return at the one draw
point inside `update_question` on state `app` with answer `answer`:
the draw happens after the scoring block, so its bounds are those of
the post-scoring state.  When the method returns at the visibility
guard no draw happens and `r` is unconstrained. -/
def drawnFrom (app : AppState) (answer : String) (r : Int) : Prop :=
  app.answerEntryVisible = true →
    ((score_answer { app.seito with total_q_num := app.seito.total_q_num + 1 }
        answer).1.start ≤ r ∧
     r ≤ (score_answer { app.seito with total_q_num := app.seito.total_q_num + 1 }
        answer).1.difficulty)

/-- States reachable from `a` by repeatedly submitting answers, each
with a draw oracle `random.randint` could have produced there. -/
inductive Reaches : AppState → AppState → Prop where
  | refl (a : AppState) : Reaches a a
  | step (a b : AppState) (answer : String) (r : Int) :
      Reaches a b → drawnFrom b answer r →
      Reaches a (update_question b answer r).1

/-! ## Concrete states used by witnesses and counterexamples -/

/-- A three-entry pool, standing for a loaded
`split_japanese_words.csv`. -/
def exPool : List WordEntry :=
  [{ english := "one", japanese := "ichiJ", kana := "ichiK" },
   { english := "two", japanese := "niJ", kana := "niK" },
   { english := "three", japanese := "sanJ", kana := "sanK" }]

/-- A configured session over `exPool` with window `[0, 2]`, current
word the entry at index 0, nothing answered yet. -/
def baseSeito : Seito :=
  { r_num := 0, total_q_num := 0, correct_ans := 0, incorrect_ans := 0,
    english := "one", kanji := "ichiJ", kana := "ichiK",
    data := exPool, start := 0, difficulty := 2,
    word_total := 3, word_count := 2, win := false }

/-- `baseSeito` wrapped in the application state, answer entry shown. -/
def appBase : AppState :=
  { seito := baseSeito, answerEntryVisible := true,
    diffEntry := some 3, startEntry := some 0, history := [] }

/-- A session whose `word_count` floor has been reached. -/
def seitoFloor : Seito :=
  { baseSeito with word_count := 0, difficulty := 0 }

/-- Mid-session state with a nonzero question counter. -/
def appAsked : AppState :=
  { appBase with seito := { baseSeito with total_q_num := 7 } }

/-- State one correct answer away from completion: `word_count = 0`,
current word the entry at index 2 (`sanJ`), five questions asked. -/
def appLastWord : AppState :=
  { appBase with seito :=
      { baseSeito with r_num := 2, difficulty := 0, word_count := 0,
                       kanji := "sanJ", kana := "sanK", total_q_num := 5 } }

/-- A completed session: `win` set and the answer entry hidden, as
`end_session` leaves them. -/
def appDone : AppState :=
  { appBase with answerEntryVisible := false,
                 seito := { baseSeito with win := true } }

/-- A completed session having learned 2 words over 3 questions. -/
def appTwoOfThree : AppState :=
  { appBase with seito :=
      { baseSeito with word_total := 2, total_q_num := 3,
                       incorrect_ans := 2, win := true } }

/-- A session configured with `start = 3`. -/
def appStartThree : AppState :=
  { appBase with seito := { baseSeito with start := 3 } }

/-! ## Helper lemmas -/

theorem pyResolveIndex_of_nonneg (len : Nat) (i : Int)
    (h0 : 0 ≤ i) (h1 : i < (len : Int)) :
    pyResolveIndex len i = some i.toNat := by
  unfold pyResolveIndex
  rw [if_neg (by omega)]
  exact if_pos ⟨h0, h1⟩

theorem pyGet_of_nonneg (l : List WordEntry) (i : Int)
    (h0 : 0 ≤ i) (h1 : i < (l.length : Int)) :
    ∃ e, pyGet l i = some e := by
  have hlt : i.toNat < l.length := by omega
  refine ⟨l[i.toNat], ?_⟩
  unfold pyGet
  rw [pyResolveIndex_of_nonneg l.length i h0 h1]
  simp [List.getElem?_eq_getElem hlt]

theorem generate_word_char (s : Seito) (r : Int)
    (hs : s.start ≤ r) (hr : r ≤ s.difficulty)
    (h0 : 0 ≤ s.start) (hlen : s.difficulty < (s.data.length : Int)) :
    ∃ e, pyGet s.data r = some e ∧
      generate_word s r =
        ({ s with r_num := r, english := e.english,
                  kanji := e.japanese, kana := e.kana }, Outcome.ok) := by
  obtain ⟨e, he⟩ := pyGet_of_nonneg s.data r (by omega) (by omega)
  refine ⟨e, he, ?_⟩
  unfold generate_word
  rw [if_neg (by omega)]
  have hdata : ({ s with r_num := r } : Seito).data = s.data := rfl
  simp only [hdata, he]

theorem pyGet_none_of_ge (l : List WordEntry) (i : Int)
    (h : (l.length : Int) ≤ i) : pyGet l i = none := by
  unfold pyGet pyResolveIndex
  rw [if_neg (by omega)]
  rw [if_neg (by omega : ¬ (0 ≤ i ∧ i < (l.length : Int)))]
  rfl

theorem generate_word_inpool (s : Seito) (r : Int)
    (hs : s.start ≤ r) (hr : r ≤ s.difficulty)
    (h0 : 0 ≤ r) (hlen : r < (s.data.length : Int)) :
    ∃ e, pyGet s.data r = some e ∧
      generate_word s r =
        ({ s with r_num := r, english := e.english,
                  kanji := e.japanese, kana := e.kana }, Outcome.ok) := by
  obtain ⟨e, he⟩ := pyGet_of_nonneg s.data r h0 hlen
  refine ⟨e, he, ?_⟩
  unfold generate_word
  rw [if_neg (by omega)]
  have hdata : ({ s with r_num := r } : Seito).data = s.data := rfl
  simp only [hdata, he]

theorem generate_word_outpool (s : Seito) (r : Int)
    (hs : s.start ≤ r) (hr : r ≤ s.difficulty)
    (hlen : (s.data.length : Int) ≤ r) :
    generate_word s r = ({ s with r_num := r }, Outcome.crash) := by
  unfold generate_word
  rw [if_neg (by omega)]
  have hdata : ({ s with r_num := r } : Seito).data = s.data := rfl
  have hnone : pyGet s.data r = none := pyGet_none_of_ge s.data r hlen
  simp only [hdata, hnone]

theorem remove_word_char (s : Seito)
    (hc : 0 < s.word_count) (h0 : 0 ≤ s.r_num)
    (h1 : s.r_num < (s.data.length : Int)) :
    remove_word s =
      ({ s with word_count := s.word_count - 1, difficulty := s.difficulty - 1,
                data := s.data.eraseIdx s.r_num.toNat }, Outcome.ok) := by
  unfold remove_word
  rw [if_pos hc]
  unfold pyPop
  have hdata : ({ s with word_count := s.word_count - 1,
                         difficulty := s.difficulty - 1 } : Seito).data = s.data := rfl
  simp only [hdata, pyResolveIndex_of_nonneg s.data.length s.r_num h0 h1]
  rfl

theorem end_session_char (app : AppState) (h : app.seito.total_q_num ≠ 0) :
    (end_session app).1.seito = app.seito ∧
    (end_session app).2 = Outcome.ok ∧
    (end_session app).1.answerEntryVisible = false ∧
    (end_session app).1.history = app.history ++
      [{ difficultyLabel := app.diffEntry,
         successPercent := codeAccuracy app.seito.word_total app.seito.total_q_num,
         mistakes := app.seito.incorrect_ans,
         totalWords := app.seito.word_total }] := by
  unfold end_session update_data
  have hq : ({ app with answerEntryVisible := false } : AppState).seito.total_q_num ≠ 0 := h
  rw [if_neg hq]
  exact ⟨rfl, rfl, rfl, rfl⟩

theorem update_question_eq (app : AppState) (answer : String) (r : Int)
    (hv : app.answerEntryVisible = true) (s1 s2 : Seito)
    (hscore : score_answer
        { app.seito with total_q_num := app.seito.total_q_num + 1 } answer
        = (s1, Outcome.ok))
    (hgen : generate_word s1 r = (s2, Outcome.ok))
    (hq : s2.total_q_num ≠ 0) :
    (update_question app answer r).1.seito = s2 ∧
    (update_question app answer r).2 = Outcome.ok ∧
    (update_question app answer r).1.answerEntryVisible =
      (if s2.win then false else app.answerEntryVisible) := by
  have hcomp : update_question app answer r =
      if s2.win then end_session { app with seito := s2 }
      else ({ app with seito := s2 }, Outcome.ok) := by
    unfold update_question
    rw [hv]
    simp only [Bool.true_eq_false, if_false, hscore, hgen]
  by_cases hwin : s2.win = true
  · have hchar := end_session_char { app with seito := s2 } hq
    rw [hcomp]
    simp only [hwin, if_true]
    exact ⟨hchar.1, hchar.2.1, hchar.2.2.1⟩
  · have hwin2 : s2.win = false := by
      cases h2 : s2.win
      · rfl
      · exact absurd h2 hwin
    rw [hcomp]
    simp [hwin2]

theorem score_answer_wrong (s : Seito) (answer : String)
    (h : ¬ (answer = s.kanji ∨ answer = s.kana)) :
    score_answer s answer =
      ({ s with incorrect_ans := s.incorrect_ans + 1 }, Outcome.ok) := by
  unfold score_answer
  rw [if_neg h]

theorem score_answer_right_floor (s : Seito) (answer : String)
    (h : answer = s.kanji ∨ answer = s.kana) (hc : ¬ 0 < s.word_count) :
    score_answer s answer =
      ({ s with correct_ans := s.correct_ans + 1, win := true }, Outcome.ok) := by
  unfold score_answer
  rw [if_pos h]
  unfold remove_word
  rw [if_neg hc]

theorem score_answer_right_consume (s : Seito) (answer : String)
    (h : answer = s.kanji ∨ answer = s.kana) (hc : 0 < s.word_count)
    (h0 : 0 ≤ s.r_num) (h1 : s.r_num < (s.data.length : Int)) :
    score_answer s answer =
      ({ s with correct_ans := s.correct_ans + 1,
                word_count := s.word_count - 1,
                difficulty := s.difficulty - 1,
                data := s.data.eraseIdx s.r_num.toNat }, Outcome.ok) := by
  unfold score_answer
  rw [if_pos h]
  rw [remove_word_char { s with correct_ans := s.correct_ans + 1 } hc h0 h1]

theorem update_question_step (app : AppState) (answer : String) (r : Int)
    (hInv : SessionInv app) (hdraw : drawnFrom app answer r) :
    SessionInv (update_question app answer r).1 ∧
    (update_question app answer r).2 = Outcome.ok ∧
    (update_question app answer r).1.seito.start = app.seito.start ∧
    (update_question app answer r).1.seito.difficulty ≤ app.seito.difficulty := by
  obtain ⟨h1, h2, h3, h4, h5, h6, h7⟩ := hInv
  by_cases hv : app.answerEntryVisible = true
  case neg =>
    have hv2 : app.answerEntryVisible = false := by
      cases hb : app.answerEntryVisible
      · rfl
      · exact absurd hb hv
    have heq : update_question app answer r = (app, Outcome.ok) := by
      unfold update_question
      rw [hv2]
      simp
    rw [heq]
    exact ⟨⟨h1, h2, h3, h4, h5, h6, h7⟩, rfl, rfl, le_refl _⟩
  case pos =>
    obtain ⟨hrl, hru⟩ := hdraw hv
    by_cases hm : answer = app.seito.kanji ∨ answer = app.seito.kana
    · by_cases hc : (0 : Int) < app.seito.word_count
      · -- correct answer with words remaining: consume, then draw
        have hscore := score_answer_right_consume
          { app.seito with total_q_num := app.seito.total_q_num + 1 } answer
          hm hc
          (show (0 : Int) ≤ app.seito.r_num by omega)
          (show app.seito.r_num < (app.seito.data.length : Int) by omega)
        simp only [hscore] at hrl hru
        have htoNat : app.seito.r_num.toNat < app.seito.data.length := by omega
        have hlenE : ((app.seito.data.eraseIdx app.seito.r_num.toNat).length : Int)
            = (app.seito.data.length : Int) - 1 := by
          rw [List.length_eraseIdx_of_lt htoNat]
          omega
        obtain ⟨e, he, hgen⟩ := generate_word_char
          { app.seito with total_q_num := app.seito.total_q_num + 1,
                           correct_ans := app.seito.correct_ans + 1,
                           word_count := app.seito.word_count - 1,
                           difficulty := app.seito.difficulty - 1,
                           data := app.seito.data.eraseIdx app.seito.r_num.toNat } r
          (show app.seito.start ≤ r from hrl)
          (show r ≤ app.seito.difficulty - 1 from hru)
          (show (0 : Int) ≤ app.seito.start from h1)
          (show app.seito.difficulty - 1 <
              ((app.seito.data.eraseIdx app.seito.r_num.toNat).length : Int) by omega)
        have hUQ := update_question_eq app answer r hv _ _ hscore hgen
          (by show app.seito.total_q_num + 1 ≠ 0 ; omega)
        refine ⟨?_, hUQ.2.1, ?_, ?_⟩
        · unfold SessionInv
          rw [hUQ.1]
          refine ⟨?_, ?_, ?_, ?_, ?_, ?_, ?_⟩
          · show (0 : Int) ≤ app.seito.start ; omega
          · show app.seito.start ≤ app.seito.difficulty - 1 ; omega
          · show app.seito.difficulty - 1 <
              ((app.seito.data.eraseIdx app.seito.r_num.toNat).length : Int) ; omega
          · show app.seito.word_count - 1 = app.seito.difficulty - 1 - app.seito.start
            omega
          · show app.seito.start ≤ r ; omega
          · show r ≤ app.seito.difficulty - 1 ; omega
          · show (0 : Int) ≤ app.seito.total_q_num + 1 ; omega
        · rw [hUQ.1]
        · rw [hUQ.1] ; show app.seito.difficulty - 1 ≤ app.seito.difficulty ; omega
      · -- correct answer at the floor: completion short-circuits removal
        have hscore := score_answer_right_floor
          { app.seito with total_q_num := app.seito.total_q_num + 1 } answer hm hc
        simp only [hscore] at hrl hru
        obtain ⟨e, he, hgen⟩ := generate_word_char
          { app.seito with total_q_num := app.seito.total_q_num + 1,
                           correct_ans := app.seito.correct_ans + 1, win := true } r
          (show app.seito.start ≤ r from hrl)
          (show r ≤ app.seito.difficulty from hru)
          (show (0 : Int) ≤ app.seito.start from h1)
          (show app.seito.difficulty < (app.seito.data.length : Int) from h3)
        have hUQ := update_question_eq app answer r hv _ _ hscore hgen
          (by show app.seito.total_q_num + 1 ≠ 0 ; omega)
        refine ⟨?_, hUQ.2.1, ?_, ?_⟩
        · unfold SessionInv
          rw [hUQ.1]
          refine ⟨?_, ?_, ?_, ?_, ?_, ?_, ?_⟩
          · show (0 : Int) ≤ app.seito.start ; omega
          · show app.seito.start ≤ app.seito.difficulty ; omega
          · show app.seito.difficulty < (app.seito.data.length : Int) ; omega
          · show app.seito.word_count = app.seito.difficulty - app.seito.start ; omega
          · show app.seito.start ≤ r ; omega
          · show r ≤ app.seito.difficulty ; omega
          · show (0 : Int) ≤ app.seito.total_q_num + 1 ; omega
        · rw [hUQ.1]
        · rw [hUQ.1]
    · -- wrong answer: mistake counted, word kept, draw again
      have hscore := score_answer_wrong
        { app.seito with total_q_num := app.seito.total_q_num + 1 } answer hm
      simp only [hscore] at hrl hru
      obtain ⟨e, he, hgen⟩ := generate_word_char
        { app.seito with total_q_num := app.seito.total_q_num + 1,
                         incorrect_ans := app.seito.incorrect_ans + 1 } r
        (show app.seito.start ≤ r from hrl)
        (show r ≤ app.seito.difficulty from hru)
        (show (0 : Int) ≤ app.seito.start from h1)
        (show app.seito.difficulty < (app.seito.data.length : Int) from h3)
      have hUQ := update_question_eq app answer r hv _ _ hscore hgen
        (by show app.seito.total_q_num + 1 ≠ 0 ; omega)
      refine ⟨?_, hUQ.2.1, ?_, ?_⟩
      · unfold SessionInv
        rw [hUQ.1]
        refine ⟨?_, ?_, ?_, ?_, ?_, ?_, ?_⟩
        · show (0 : Int) ≤ app.seito.start ; omega
        · show app.seito.start ≤ app.seito.difficulty ; omega
        · show app.seito.difficulty < (app.seito.data.length : Int) ; omega
        · show app.seito.word_count = app.seito.difficulty - app.seito.start ; omega
        · show app.seito.start ≤ r ; omega
        · show r ≤ app.seito.difficulty ; omega
        · show (0 : Int) ≤ app.seito.total_q_num + 1 ; omega
      · rw [hUQ.1]
      · rw [hUQ.1]

theorem Reaches_inv (a b : AppState) (h : Reaches a b) (hInv : SessionInv a) :
    SessionInv b ∧ b.seito.start = a.seito.start ∧
    b.seito.difficulty ≤ a.seito.difficulty := by
  induction h with
  | refl => exact ⟨hInv, rfl, le_refl _⟩
  | step b answer r hreach hdraw ih =>
      obtain ⟨hI, hs, hd⟩ := ih
      have hstep := update_question_step b answer r hI hdraw
      exact ⟨hstep.1, by rw [hstep.2.2.1, hs], le_trans hstep.2.2.2 hd⟩

theorem difficulty_set_char (app : AppState) (d st r : Int)
    (hr1 : st ≤ r) (hr2 : r ≤ d - 1)
    (hlen : d - 1 < (app.seito.data.length : Int)) (hst : 0 ≤ st) :
    ∃ e, pyGet app.seito.data r = some e ∧
      difficulty_set app (some d) (some st) r =
        ({ app with
             seito := { app.seito with
               start := st, word_total := d - 1 - st + 1,
               word_count := d - 1 - st, difficulty := d - 1,
               r_num := r, english := e.english, kanji := e.japanese,
               kana := e.kana },
             answerEntryVisible := true,
             diffEntry := some d, startEntry := some st }, Outcome.ok) := by
  obtain ⟨e, he, hgen⟩ := generate_word_char
    { app.seito with start := st, word_total := d - 1 - st + 1,
                     word_count := d - 1 - st, difficulty := d - 1 } r
    (show st ≤ r from hr1) (show r ≤ d - 1 from hr2)
    (show (0 : Int) ≤ st from hst)
    (show d - 1 < (app.seito.data.length : Int) from hlen)
  refine ⟨e, he, ?_⟩
  unfold difficulty_set
  simp only [hgen]

/-! ## Claims -/

/-- **C1**: on a state whose `word_count` is already 0, `remove_word`
only sets `win`, leaving `word_count`, both window bounds and the pool
untouched — completion short-circuits removal; on a state with
`word_count > 0` (the current index denoting a pool entry) it
decrements `word_count`, decrements the effective depth `difficulty`,
and removes exactly the entry at `r_num` from the pool, leaving `win`
and everything else unchanged. -/
theorem claim_remove_word_branches (s : Seito) :
    (s.word_count = 0 →
       remove_word s = ({ s with win := true }, Outcome.ok)) ∧
    (0 < s.word_count → 0 ≤ s.r_num → s.r_num < (s.data.length : Int) →
       remove_word s =
         ({ s with word_count := s.word_count - 1,
                   difficulty := s.difficulty - 1,
                   data := s.data.eraseIdx s.r_num.toNat }, Outcome.ok)) := by
  constructor
  · intro h0
    unfold remove_word
    rw [if_neg (by omega)]
  · intro hc h0 h1
    exact remove_word_char s hc h0 h1

theorem claim_remove_word_branches_witness :
    remove_word seitoFloor = ({ seitoFloor with win := true }, Outcome.ok) ∧
    remove_word baseSeito =
      ({ baseSeito with word_count := baseSeito.word_count - 1,
                        difficulty := baseSeito.difficulty - 1,
                        data := baseSeito.data.eraseIdx baseSeito.r_num.toNat },
       Outcome.ok) :=
  ⟨(claim_remove_word_branches seitoFloor).1 (by decide),
   (claim_remove_word_branches baseSeito).2 (by decide) (by decide) (by decide)⟩

/-- **C2** counterexample: consuming a word does decrement the upper
window bound — on `baseSeito` the bound is 2 before `remove_word` and
1 after, so `rangeEnd` is decremented as a bound value. -/
theorem claim_rangeEnd_fixed_cex :
    (remove_word baseSeito).1.difficulty = 1 ∧ baseSeito.difficulty = 2 := by
  constructor <;> decide

/-- **C2** amended: drawing a word never changes either window bound,
and the completion branch of `remove_word` changes none; but consuming
a word with words remaining decrements the upper bound `difficulty` by
one in lockstep with the pool shrinking by one entry; `start` is never
changed by drawing or consuming. -/
theorem claim_rangeEnd_lockstep (s : Seito) (r : Int) :
    (0 < s.word_count →
        (remove_word s).1.difficulty = s.difficulty - 1 ∧
        (0 ≤ s.r_num → s.r_num < (s.data.length : Int) →
           ((remove_word s).1.data.length : Int) = (s.data.length : Int) - 1)) ∧
    (s.word_count ≤ 0 →
        (remove_word s).1.difficulty = s.difficulty ∧
        (remove_word s).1.data = s.data) ∧
    (remove_word s).1.start = s.start ∧
    (generate_word s r).1.difficulty = s.difficulty ∧
    (generate_word s r).1.start = s.start := by
  refine ⟨fun hc => ⟨?_, fun h0 h1 => ?_⟩, fun hle => ?_, ?_, ?_, ?_⟩
  · unfold remove_word
    rw [if_pos hc]
    dsimp only
    split <;> rfl
  · rw [remove_word_char s hc h0 h1]
    show ((s.data.eraseIdx s.r_num.toNat).length : Int) = (s.data.length : Int) - 1
    rw [List.length_eraseIdx_of_lt (by omega)]
    omega
  · unfold remove_word
    rw [if_neg (by omega)]
    exact ⟨rfl, rfl⟩
  · unfold remove_word
    by_cases hc : 0 < s.word_count
    · rw [if_pos hc]
      dsimp only
      split <;> rfl
    · rw [if_neg hc]
  · unfold generate_word
    by_cases hlt : s.difficulty < s.start
    · rw [if_pos hlt]
    · rw [if_neg hlt]
      dsimp only
      split <;> rfl
  · unfold generate_word
    by_cases hlt : s.difficulty < s.start
    · rw [if_pos hlt]
    · rw [if_neg hlt]
      dsimp only
      split <;> rfl

theorem claim_rangeEnd_lockstep_witness :
    (remove_word baseSeito).1.difficulty = baseSeito.difficulty - 1 ∧
    (remove_word seitoFloor).1.difficulty = seitoFloor.difficulty ∧
    (generate_word baseSeito 1).1.difficulty = baseSeito.difficulty :=
  ⟨((claim_rangeEnd_lockstep baseSeito 1).1 (by decide)).1,
   ((claim_rangeEnd_lockstep seitoFloor 1).2.1 (by decide)).1,
   (claim_rangeEnd_lockstep baseSeito 1).2.2.2.1⟩

/-- **C3** counterexample: `difficulty_set` with valid bounds on a
state that has `total_q_num = 7` succeeds and leaves `total_q_num` at
7 — configure does not reset the counters to zero. -/
theorem claim_configure_resets_cex :
    (difficulty_set appAsked (some 3) (some 0) 0).2 = Outcome.ok ∧
    (difficulty_set appAsked (some 3) (some 0) 0).1.seito.total_q_num = 7 := by
  constructor <;> decide

/-- **C3** amended: a configure with in-range bounds sets
`word_total = rangeEnd - rangeStart + 1` and
`word_count = word_total - 1`, installs the new window bounds, and
draws a first current word from the new window; it does **not** reset
`total_q_num`, `correct_ans`, `incorrect_ans` or `win`, which keep
their prior values (they are zeroed/cleared only by construction and
by `restart`, each of which precedes a configure in the app's flow). -/
theorem claim_configure_effects (app : AppState) (d st r : Int)
    (hst : 0 ≤ st) (hr1 : st ≤ r) (hr2 : r ≤ d - 1)
    (hlen : d - 1 < (app.seito.data.length : Int)) :
    (difficulty_set app (some d) (some st) r).2 = Outcome.ok ∧
    (difficulty_set app (some d) (some st) r).1.seito.word_total = (d - 1) - st + 1 ∧
    (difficulty_set app (some d) (some st) r).1.seito.word_count = (d - 1) - st ∧
    (difficulty_set app (some d) (some st) r).1.seito.start = st ∧
    (difficulty_set app (some d) (some st) r).1.seito.difficulty = d - 1 ∧
    (difficulty_set app (some d) (some st) r).1.seito.r_num = r ∧
    st ≤ r ∧ r ≤ d - 1 ∧
    (∃ e, pyGet app.seito.data r = some e ∧
       (difficulty_set app (some d) (some st) r).1.seito.english = e.english ∧
       (difficulty_set app (some d) (some st) r).1.seito.kanji = e.japanese ∧
       (difficulty_set app (some d) (some st) r).1.seito.kana = e.kana) ∧
    (difficulty_set app (some d) (some st) r).1.seito.total_q_num
        = app.seito.total_q_num ∧
    (difficulty_set app (some d) (some st) r).1.seito.correct_ans
        = app.seito.correct_ans ∧
    (difficulty_set app (some d) (some st) r).1.seito.incorrect_ans
        = app.seito.incorrect_ans ∧
    (difficulty_set app (some d) (some st) r).1.seito.win = app.seito.win := by
  obtain ⟨e, he, hconf⟩ := difficulty_set_char app d st r hr1 hr2 hlen hst
  rw [hconf]
  exact ⟨rfl, rfl, rfl, rfl, rfl, rfl, hr1, hr2, ⟨e, he, rfl, rfl, rfl⟩,
         rfl, rfl, rfl, rfl⟩

theorem claim_configure_effects_witness :
    (difficulty_set appBase (some 3) (some 0) 1).2 = Outcome.ok ∧
    (difficulty_set appBase (some 3) (some 0) 1).1.seito.word_total
        = (3 - 1) - 0 + 1 :=
  ⟨(claim_configure_effects appBase 3 0 1 (by decide) (by decide) (by decide)
      (by decide)).1,
   (claim_configure_effects appBase 3 0 1 (by decide) (by decide) (by decide)
      (by decide)).2.1⟩

/-- **C4** counterexample: on the submission that completes the
session (`word_count` already 0, correct answer), `update_question`
still draws a new current word — `r_num` moves from 2 to the fresh
draw 0 — even though `win` has just been set; the draw is not gated on
the session being incomplete. -/
theorem claim_draw_gated_cex :
    (update_question appLastWord "sanJ" 0).2 = Outcome.ok ∧
    (update_question appLastWord "sanJ" 0).1.seito.win = true ∧
    appLastWord.seito.r_num = 2 ∧
    (update_question appLastWord "sanJ" 0).1.seito.r_num = 0 := by
  refine ⟨by decide, by decide, by decide, by decide⟩

/-- **C4** amended: with the answer entry visible, a submission
increments `total_q_num`, then on exact match of `kanji` or `kana`
(case-sensitive) increments `correct_ans` and consumes via
`remove_word` (pool entry at `r_num` removed when words remain; `win`
set with the pool untouched at the floor), otherwise increments
`incorrect_ans` with the pool untouched — and afterwards a new current
word is drawn **unconditionally**, even on the completing submission
(the post-state always has `r_num = r`). -/
theorem claim_submit_effects (app : AppState) (answer : String) (r : Int)
    (hvis : app.answerEntryVisible = true) (hInv : SessionInv app)
    (hdraw : drawnFrom app answer r) :
    (update_question app answer r).1.seito.total_q_num
        = app.seito.total_q_num + 1 ∧
    (update_question app answer r).1.seito.r_num = r ∧
    (¬ (answer = app.seito.kanji ∨ answer = app.seito.kana) →
       (update_question app answer r).1.seito.incorrect_ans
           = app.seito.incorrect_ans + 1 ∧
       (update_question app answer r).1.seito.correct_ans
           = app.seito.correct_ans ∧
       (update_question app answer r).1.seito.data = app.seito.data ∧
       (update_question app answer r).1.seito.word_count
           = app.seito.word_count ∧
       (update_question app answer r).1.seito.win = app.seito.win) ∧
    ((answer = app.seito.kanji ∨ answer = app.seito.kana) →
       (update_question app answer r).1.seito.correct_ans
           = app.seito.correct_ans + 1 ∧
       (update_question app answer r).1.seito.incorrect_ans
           = app.seito.incorrect_ans ∧
       (0 < app.seito.word_count →
          (update_question app answer r).1.seito.data
              = app.seito.data.eraseIdx app.seito.r_num.toNat ∧
          (update_question app answer r).1.seito.word_count
              = app.seito.word_count - 1 ∧
          (update_question app answer r).1.seito.win = app.seito.win) ∧
       (app.seito.word_count = 0 →
          (update_question app answer r).1.seito.data = app.seito.data ∧
          (update_question app answer r).1.seito.win = true)) := by
  obtain ⟨h1, h2, h3, h4, h5, h6, h7⟩ := hInv
  obtain ⟨hrl, hru⟩ := hdraw hvis
  by_cases hm : answer = app.seito.kanji ∨ answer = app.seito.kana
  · by_cases hc : (0 : Int) < app.seito.word_count
    · have hscore := score_answer_right_consume
        { app.seito with total_q_num := app.seito.total_q_num + 1 } answer
        hm hc (show (0 : Int) ≤ app.seito.r_num by omega)
        (show app.seito.r_num < (app.seito.data.length : Int) by omega)
      simp only [hscore] at hrl hru
      have htoNat : app.seito.r_num.toNat < app.seito.data.length := by omega
      have hlenE : ((app.seito.data.eraseIdx app.seito.r_num.toNat).length : Int)
          = (app.seito.data.length : Int) - 1 := by
        rw [List.length_eraseIdx_of_lt htoNat]
        omega
      obtain ⟨e, he, hgen⟩ := generate_word_char
        { app.seito with total_q_num := app.seito.total_q_num + 1,
                         correct_ans := app.seito.correct_ans + 1,
                         word_count := app.seito.word_count - 1,
                         difficulty := app.seito.difficulty - 1,
                         data := app.seito.data.eraseIdx app.seito.r_num.toNat } r
        (show app.seito.start ≤ r from hrl)
        (show r ≤ app.seito.difficulty - 1 from hru)
        (show (0 : Int) ≤ app.seito.start from h1)
        (show app.seito.difficulty - 1 <
            ((app.seito.data.eraseIdx app.seito.r_num.toNat).length : Int) by omega)
      have hUQ := update_question_eq app answer r hvis _ _ hscore hgen
        (by show app.seito.total_q_num + 1 ≠ 0 ; omega)
      rw [hUQ.1]
      exact ⟨rfl, rfl, fun hnm => absurd hm hnm,
             fun _ => ⟨rfl, rfl, fun _ => ⟨rfl, rfl, rfl⟩,
                       fun h0 => absurd h0 (by omega)⟩⟩
    · have hscore := score_answer_right_floor
        { app.seito with total_q_num := app.seito.total_q_num + 1 } answer hm hc
      simp only [hscore] at hrl hru
      obtain ⟨e, he, hgen⟩ := generate_word_char
        { app.seito with total_q_num := app.seito.total_q_num + 1,
                         correct_ans := app.seito.correct_ans + 1, win := true } r
        (show app.seito.start ≤ r from hrl)
        (show r ≤ app.seito.difficulty from hru)
        (show (0 : Int) ≤ app.seito.start from h1)
        (show app.seito.difficulty < (app.seito.data.length : Int) from h3)
      have hUQ := update_question_eq app answer r hvis _ _ hscore hgen
        (by show app.seito.total_q_num + 1 ≠ 0 ; omega)
      rw [hUQ.1]
      exact ⟨rfl, rfl, fun hnm => absurd hm hnm,
             fun _ => ⟨rfl, rfl, fun hpos => absurd hpos (by omega),
                       fun _ => ⟨rfl, rfl⟩⟩⟩
  · have hscore := score_answer_wrong
      { app.seito with total_q_num := app.seito.total_q_num + 1 } answer hm
    simp only [hscore] at hrl hru
    obtain ⟨e, he, hgen⟩ := generate_word_char
      { app.seito with total_q_num := app.seito.total_q_num + 1,
                       incorrect_ans := app.seito.incorrect_ans + 1 } r
      (show app.seito.start ≤ r from hrl)
      (show r ≤ app.seito.difficulty from hru)
      (show (0 : Int) ≤ app.seito.start from h1)
      (show app.seito.difficulty < (app.seito.data.length : Int) from h3)
    have hUQ := update_question_eq app answer r hvis _ _ hscore hgen
      (by show app.seito.total_q_num + 1 ≠ 0 ; omega)
    rw [hUQ.1]
    exact ⟨rfl, rfl, fun _ => ⟨rfl, rfl, rfl, rfl, rfl⟩,
           fun hm2 => absurd hm2 hm⟩

theorem claim_submit_effects_witness :
    appBase.answerEntryVisible = true ∧
    (update_question appBase "zzz" 1).1.seito.total_q_num
        = appBase.seito.total_q_num + 1 ∧
    (update_question appBase "zzz" 1).1.seito.r_num = 1 :=
  ⟨by decide,
   (claim_submit_effects appBase "zzz" 1 (by decide)
      (by unfold SessionInv ; decide)
      (by unfold drawnFrom score_answer remove_word ; decide)).1,
   (claim_submit_effects appBase "zzz" 1 (by decide)
      (by unfold SessionInv ; decide)
      (by unfold drawnFrom score_answer remove_word ; decide)).2.1⟩

/-- **C5** counterexample: submitting while the session is complete
(`win = true`, answer entry hidden as `end_session` leaves it) raises
nothing — the call returns normally with outcome `ok`, not
`stateError`, and the state is returned unchanged. -/
theorem claim_terminal_stateerror_cex :
    update_question appDone "ichiJ" 0 = (appDone, Outcome.ok) ∧
    Outcome.ok ≠ Outcome.stateError := by
  refine ⟨by decide, by decide⟩

/-- **C5** amended: after completion further submissions are silently
ignored rather than raising an error: `end_session` hides the answer
entry on the completing call, and `update_question` on any state whose
answer entry is hidden returns at its guard with the entire
application state unchanged and outcome `ok` — no mutation and no
raised `StateError` (no code path produces `stateError`). -/
theorem claim_terminal_submit_ignored (app : AppState) (answer : String)
    (r : Int) :
    (app.answerEntryVisible = false →
       update_question app answer r = (app, Outcome.ok)) ∧
    (app.seito.total_q_num ≠ 0 →
       (end_session app).1.answerEntryVisible = false) := by
  constructor
  · intro hv
    unfold update_question
    rw [hv]
    simp
  · intro hq
    exact (end_session_char app hq).2.2.1

theorem claim_terminal_submit_ignored_witness :
    update_question appDone "x" 0 = (appDone, Outcome.ok) ∧
    (end_session appTwoOfThree).1.answerEntryVisible = false :=
  ⟨(claim_terminal_submit_ignored appDone "x" 0).1 (by decide),
   (claim_terminal_submit_ignored appTwoOfThree "x" 0).2 (by decide)⟩

/-- **C7** counterexample: a session completed with `word_total = 2`
and `total_q_num = 3` records accuracy 66 — the `int()` truncation of
the binary64 evaluation of `2/3*100` (which is below 67) — while
`round(wordsTotal / totalAsked * 100) = round(200/3)` is 67, so the
recorded value is not the exact ratio rounded to nearest. -/
theorem claim_accuracy_round_cex :
    (end_session appTwoOfThree).2 = Outcome.ok ∧
    (end_session appTwoOfThree).1.history =
      [{ difficultyLabel := some 3, successPercent := 66,
         mistakes := 2, totalWords := 2 }] ∧
    round ((2 : ℚ) / 3 * 100) = 67 ∧ (66 : Int) ≠ 67 := by
  refine ⟨by decide, by decide, ?_, by decide⟩
  norm_num [round_eq]

/-- **C7** amended: the accuracy recorded on completion is the
`int()` *truncation toward zero* of the IEEE-754 binary64 evaluation
of `wordsTotal / totalAsked * 100` — not the exact rational ratio
rounded to nearest: the appended record carries
`codeAccuracy word_total total_q_num`, the bit-exact model of that
float pipeline.  At 2 words over 3 questions it records 66 (round
gives 67); the float evaluation can even fall below the exact floor,
recording 28 at `29/100` (exact floor 29) and 57 at `29/50` (exact
floor 58), while exactly-representable ratios such as `3/6` are
unaffected. -/
theorem claim_accuracy_truncates (app : AppState)
    (hq : 0 < app.seito.total_q_num) :
    (end_session app).2 = Outcome.ok ∧
    (end_session app).1.history = app.history ++
      [{ difficultyLabel := app.diffEntry,
         successPercent := codeAccuracy app.seito.word_total app.seito.total_q_num,
         mistakes := app.seito.incorrect_ans,
         totalWords := app.seito.word_total }] ∧
    codeAccuracy 2 3 = 66 ∧
    codeAccuracy 29 100 = 28 ∧ ⌊(29 : ℚ) / 100 * 100⌋ = 29 ∧
    codeAccuracy 29 50 = 57 ∧ ⌊(29 : ℚ) / 50 * 100⌋ = 58 ∧
    codeAccuracy 3 6 = 50 := by
  have hchar := end_session_char app (by omega)
  refine ⟨hchar.2.1, hchar.2.2.2, by decide, by decide, ?_, by decide, ?_, by decide⟩
  · norm_num
  · norm_num

theorem claim_accuracy_truncates_witness :
    0 < appTwoOfThree.seito.total_q_num ∧
    (end_session appTwoOfThree).2 = Outcome.ok :=
  ⟨by decide,
   (claim_accuracy_truncates appTwoOfThree (by decide)).1⟩

/-- **C8** counterexample: `restart` on a session configured with
`start = 3` leaves `start` at 3 rather than the documented default 0,
and sets the upper bound to 10 rather than 9. -/
theorem claim_reset_defaults_cex :
    (restart appStartThree exPool).seito.start = 3 ∧ (3 : Int) ≠ 0 ∧
    (restart appStartThree exPool).seito.difficulty = 10 ∧ (10 : Int) ≠ 9 := by
  refine ⟨by decide, by decide, by decide, by decide⟩

/-- **C8** amended: `restart` replaces the pool wholesale with the
externally loaded fresh pool, clears `win`, zeroes the three counters,
and sets the upper bound `difficulty` to 10 (not 9); it leaves `start`
at its previous value (not 0), leaves `word_total`, `word_count`,
`r_num` and the cached word fields untouched (so no word is drawn by
the reset itself), and changes neither the history nor the entry
visibility. -/
theorem claim_reset_effects (app : AppState) (freshPool : List WordEntry) :
    (restart app freshPool).seito.data = freshPool ∧
    (restart app freshPool).seito.win = false ∧
    (restart app freshPool).seito.total_q_num = 0 ∧
    (restart app freshPool).seito.correct_ans = 0 ∧
    (restart app freshPool).seito.incorrect_ans = 0 ∧
    (restart app freshPool).seito.difficulty = 10 ∧
    (restart app freshPool).seito.start = app.seito.start ∧
    (restart app freshPool).seito.word_total = app.seito.word_total ∧
    (restart app freshPool).seito.word_count = app.seito.word_count ∧
    (restart app freshPool).seito.r_num = app.seito.r_num ∧
    (restart app freshPool).seito.english = app.seito.english ∧
    (restart app freshPool).seito.kanji = app.seito.kanji ∧
    (restart app freshPool).seito.kana = app.seito.kana ∧
    (restart app freshPool).history = app.history ∧
    (restart app freshPool).answerEntryVisible = app.answerEntryVisible :=
  ⟨rfl, rfl, rfl, rfl, rfl, rfl, rfl, rfl, rfl, rfl, rfl, rfl, rfl, rfl, rfl⟩

/-- **C9** counterexample: numeric but out-of-range bounds (entry
texts 2 and 5 give `rangeEnd = 1 < rangeStart = 5`, an empty window)
are not rejected with the handled validation error: the bounds are
overwritten — `start` becomes 5 — and the call then fails unhandled at
the draw with the partial mutation in place. -/
theorem claim_configure_validation_cex :
    (difficulty_set appBase (some 2) (some 5) 0).2 = Outcome.crash ∧
    Outcome.crash ≠ Outcome.validationError ∧
    (difficulty_set appBase (some 2) (some 5) 0).1.seito.start = 5 ∧
    appBase.seito.start = 0 := by
  refine ⟨by decide, by decide, by decide, by decide⟩

/-- **C9** amended: only a non-numeric (unparsable) entry is caught:
the handled `ValueError` shows a dialog and leaves the session
untouched.  Numerically out-of-range bounds are not validated — the
four session fields are overwritten before the first draw.  An empty
window (`rangeEnd < rangeStart`) then fails unhandled with the partial
mutation in place; with bounds exceeding the pool the outcome depends
on where the draw lands: a draw inside the pool completes normally
with the oversized window installed, a draw beyond the pool fails
unhandled at the pool access after `r_num` is already set. -/
theorem claim_configure_validation (app : AppState)
    (dRaw stRaw : Option Int) (d st r : Int) :
    ((dRaw = none ∨ stRaw = none) →
       (difficulty_set app dRaw stRaw r).1.seito = app.seito ∧
       (difficulty_set app dRaw stRaw r).2 = Outcome.validationError) ∧
    (d - 1 < st →
       difficulty_set app (some d) (some st) r =
         ({ app with
              seito := { app.seito with
                start := st, word_total := d - 1 - st + 1,
                word_count := d - 1 - st, difficulty := d - 1 },
              diffEntry := some d, startEntry := some st }, Outcome.crash)) ∧
    (st ≤ r → r ≤ d - 1 → 0 ≤ r → r < (app.seito.data.length : Int) →
       (difficulty_set app (some d) (some st) r).2 = Outcome.ok ∧
       (difficulty_set app (some d) (some st) r).1.seito.start = st ∧
       (difficulty_set app (some d) (some st) r).1.seito.difficulty = d - 1 ∧
       (difficulty_set app (some d) (some st) r).1.seito.word_total
           = d - 1 - st + 1 ∧
       (difficulty_set app (some d) (some st) r).1.seito.word_count
           = d - 1 - st) ∧
    (st ≤ r → r ≤ d - 1 → (app.seito.data.length : Int) ≤ r →
       difficulty_set app (some d) (some st) r =
         ({ app with
              seito := { app.seito with
                r_num := r, start := st, word_total := d - 1 - st + 1,
                word_count := d - 1 - st, difficulty := d - 1 },
              diffEntry := some d, startEntry := some st }, Outcome.crash)) := by
  refine ⟨?_, ?_, ?_, ?_⟩
  · intro hcase
    unfold difficulty_set
    rcases hcase with h | h
    · rw [h]
      rcases stRaw with _ | y <;> exact ⟨rfl, rfl⟩
    · rw [h]
      rcases dRaw with _ | x <;> exact ⟨rfl, rfl⟩
  · intro hlt
    unfold difficulty_set generate_word
    dsimp only
    rw [if_pos (show (d : Int) - 1 < st from hlt)]
  · intro h1 h2 h0 hlen
    obtain ⟨e, he, hgen⟩ := generate_word_inpool
      { app.seito with start := st, word_total := d - 1 - st + 1,
                       word_count := d - 1 - st, difficulty := d - 1 } r
      (show st ≤ r from h1) (show r ≤ d - 1 from h2) h0
      (show r < (app.seito.data.length : Int) from hlen)
    unfold difficulty_set
    simp only [hgen]
    refine ⟨?_, ?_, ?_, ?_, ?_⟩ <;> trivial
  · intro h1 h2 hlen
    have hgen := generate_word_outpool
      { app.seito with start := st, word_total := d - 1 - st + 1,
                       word_count := d - 1 - st, difficulty := d - 1 } r
      (show st ≤ r from h1) (show r ≤ d - 1 from h2)
      (show (app.seito.data.length : Int) ≤ r from hlen)
    unfold difficulty_set
    simp only [hgen]

theorem claim_configure_validation_witness :
    (difficulty_set appAsked none (some 5) 0).1.seito = appAsked.seito ∧
    difficulty_set appAsked (some 2) (some 5) 0 =
      ({ appAsked with
           seito := { appAsked.seito with
             start := 5, word_total := 2 - 1 - 5 + 1,
             word_count := 2 - 1 - 5, difficulty := 2 - 1 },
           diffEntry := some 2, startEntry := some 5 }, Outcome.crash) ∧
    (difficulty_set appAsked (some 10) (some 0) 1).2 = Outcome.ok ∧
    difficulty_set appAsked (some 10) (some 0) 5 =
      ({ appAsked with
           seito := { appAsked.seito with
             r_num := 5, start := 0, word_total := 10 - 1 - 0 + 1,
             word_count := 10 - 1 - 0, difficulty := 10 - 1 },
           diffEntry := some 10, startEntry := some 0 }, Outcome.crash) :=
  ⟨((claim_configure_validation appAsked none (some 5) 2 5 0).1 (Or.inl rfl)).1,
   (claim_configure_validation appAsked (some 2) (some 5) 2 5 0).2.1 (by decide),
   ((claim_configure_validation appAsked (some 10) (some 0) 10 0 1).2.2.1
      (by decide) (by decide) (by decide) (by decide)).1,
   (claim_configure_validation appAsked (some 10) (some 0) 10 0 5).2.2.2
      (by decide) (by decide) (by decide)⟩

theorem difficulty_set_inv (app : AppState) (d st r0 : Int)
    (hq : 0 ≤ app.seito.total_q_num) (hst : 0 ≤ st)
    (hr0l : st ≤ r0) (hr0u : r0 ≤ d - 1)
    (hlen : d - 1 < (app.seito.data.length : Int)) :
    (difficulty_set app (some d) (some st) r0).2 = Outcome.ok ∧
    SessionInv (difficulty_set app (some d) (some st) r0).1 ∧
    (difficulty_set app (some d) (some st) r0).1.seito.start = st ∧
    (difficulty_set app (some d) (some st) r0).1.seito.difficulty = d - 1 := by
  obtain ⟨e, he, hconf⟩ := difficulty_set_char app d st r0 hr0l hr0u hlen hst
  rw [hconf]
  refine ⟨rfl, ⟨?_, ?_, ?_, ?_, ?_, ?_, ?_⟩, rfl, rfl⟩
  · show (0 : Int) ≤ st ; omega
  · show st ≤ d - 1 ; omega
  · show d - 1 < (app.seito.data.length : Int) ; omega
  · rfl
  · show st ≤ r0 ; omega
  · show r0 ≤ d - 1 ; omega
  · show (0 : Int) ≤ app.seito.total_q_num ; omega

/-- **C6**: after a configure with in-range bounds, every
`currentIndex` held at any reachable state was drawn from the closed
interval — both endpoints inclusive — `[rangeStart, rangeEnd]` of the
configured window, and lies inside the current (possibly narrowed)
window `[start, difficulty]`, which indexes the pool as it stands at
draw time; `start` never moves from the configured value and the upper
bound never exceeds the configured one. -/
theorem claim_range_contract (app app2 : AppState) (d st r0 : Int)
    (hq : 0 ≤ app.seito.total_q_num)
    (hst : 0 ≤ st) (hr0l : st ≤ r0) (hr0u : r0 ≤ d - 1)
    (hlen : d - 1 < (app.seito.data.length : Int))
    (hreach : Reaches (difficulty_set app (some d) (some st) r0).1 app2) :
    app2.seito.start = st ∧
    st ≤ app2.seito.r_num ∧ app2.seito.r_num ≤ d - 1 ∧
    app2.seito.start ≤ app2.seito.r_num ∧
    app2.seito.r_num ≤ app2.seito.difficulty ∧
    app2.seito.difficulty ≤ d - 1 := by
  have hds := difficulty_set_inv app d st r0 hq hst hr0l hr0u hlen
  have hIR := Reaches_inv _ _ hreach hds.2.1
  obtain ⟨⟨i1, i2, i3, i4, i5, i6, i7⟩, hs, hd⟩ := hIR
  rw [hds.2.2.1] at hs
  rw [hds.2.2.2] at hd
  exact ⟨hs, by omega, by omega, i5, i6, by omega⟩

theorem claim_range_contract_witness :
    (difficulty_set appBase (some 3) (some 0) 0).1.seito.start = 0 ∧
    (0 : Int) ≤ (difficulty_set appBase (some 3) (some 0) 0).1.seito.r_num ∧
    (difficulty_set appBase (some 3) (some 0) 0).1.seito.r_num ≤ 3 - 1 ∧
    (difficulty_set appBase (some 3) (some 0) 0).1.seito.start ≤
      (difficulty_set appBase (some 3) (some 0) 0).1.seito.r_num ∧
    (difficulty_set appBase (some 3) (some 0) 0).1.seito.r_num ≤
      (difficulty_set appBase (some 3) (some 0) 0).1.seito.difficulty ∧
    (difficulty_set appBase (some 3) (some 0) 0).1.seito.difficulty ≤ 3 - 1 :=
  claim_range_contract appBase ((difficulty_set appBase (some 3) (some 0) 0).1)
    3 0 0 (by decide) (by decide) (by decide) (by decide) (by decide)
    (Reaches.refl _)

/-- **C10**: a configure with in-range bounds establishes
`0 ≤ start ≤ difficulty < pool length` together with
`word_count = difficulty - start`; every subsequent submission
preserves this invariant (the consuming branch decrements `difficulty`
and the pool length in lockstep, keeping `word_count = difficulty -
start`), and under it every submission completes with outcome `ok` —
`generate_word`'s pool access `data[r_num]` is always in bounds and
its draw interval `[start, difficulty]` is never empty, so no
`IndexError` or `ValueError` crash is reachable. -/
theorem claim_session_safety (app app2 : AppState) (d st r0 : Int)
    (hq : 0 ≤ app.seito.total_q_num)
    (hst : 0 ≤ st) (hr0l : st ≤ r0) (hr0u : r0 ≤ d - 1)
    (hlen : d - 1 < (app.seito.data.length : Int))
    (hreach : Reaches (difficulty_set app (some d) (some st) r0).1 app2) :
    (difficulty_set app (some d) (some st) r0).2 = Outcome.ok ∧
    SessionInv (difficulty_set app (some d) (some st) r0).1 ∧
    SessionInv app2 ∧
    (∀ answer r, drawnFrom app2 answer r →
       (update_question app2 answer r).2 = Outcome.ok ∧
       SessionInv (update_question app2 answer r).1) := by
  have hds := difficulty_set_inv app d st r0 hq hst hr0l hr0u hlen
  have hIR := Reaches_inv _ _ hreach hds.2.1
  refine ⟨hds.1, hds.2.1, hIR.1, fun answer r hdr => ?_⟩
  have hstep := update_question_step app2 answer r hIR.1 hdr
  exact ⟨hstep.2.1, hstep.1⟩

theorem claim_session_safety_witness :
    (difficulty_set appBase (some 3) (some 0) 0).2 = Outcome.ok ∧
    SessionInv (difficulty_set appBase (some 3) (some 0) 0).1 :=
  ⟨(claim_session_safety appBase ((difficulty_set appBase (some 3) (some 0) 0).1)
      3 0 0 (by decide) (by decide) (by decide) (by decide) (by decide)
      (Reaches.refl _)).1,
   (claim_session_safety appBase ((difficulty_set appBase (some 3) (some 0) 0).1)
      3 0 0 (by decide) (by decide) (by decide) (by decide) (by decide)
      (Reaches.refl _)).2.1⟩
